import Mathlib

/-!
Shallow embedding of the dynamic form engine in
`src/frontend/src/components/Sidebar.tsx` (the `VisaApplicationFormComponent`
section): the validation engine (`validateField`), the per-type formatters
(`formatPhoneNumber`, the currency formatter in `handleCurrencyChange`, the
multi-checkbox comma-join in `handleMultiCheckboxChange`) and the submission
controller (`handleSubmit` with its re-entrancy guard).

Stateful React code is embedded by explicit state passing: component state
(`formData`, `errors`, `status`, `isSubmitting`) and the mutable ref
(`submissionInProgress`) become fields of an explicit state record, and each
handler becomes a function from state to state.  `console.error` observability
events are modelled by an explicit counter.  JS strings are Lean `String`s,
JS objects used as maps are association lists in insertion order.
-/

/-! ## Validation engine (`validateField`, Sidebar.tsx lines 164-193) -/

/-- Outcome of running one validation rule's `generated_code` on a value.
`new Function(...)` can throw at construction time (`creationError`, caught by
the outer `catch`, logged and the loop continues), the generated predicate can
throw at evaluation time (`execError`, caught by the inner `catch`, which logs
an execution-error event and returns `true`, i.e. fail-open), or the predicate
returns a boolean (`result`). -/
inductive RuleExec where
  | creationError
  | execError
  | result (b : Bool)
deriving DecidableEq

/-- A validation rule record `{field_id, generated_code, prompt?, description?}`.
The semantics of the executable `generated_code` string on a given value is
embedded as the function `exec`. -/
structure ValidationRule where
  field_id : String
  prompt : Option String
  description : Option String
  exec : String → RuleExec

/-- JS `a || b` on an optional string `a`: `undefined` and the empty string are
falsy, so they fall through to `b`. -/
def jsOr (a : Option String) (b : String) : String :=
  match a with
  | none => b
  | some s => if s = "" then b else s

/-- The failure message of a rule: `rule.prompt || rule.description || 'Invalid input'`. -/
def ruleMessage (r : ValidationRule) : String :=
  jsOr r.prompt (jsOr r.description "Invalid input")

/-- The `for (const rule of fieldRules)` loop body of `validateField`, over the
already-filtered rule list.  Returns the error message (empty when no rule
rejects) together with the number of execution-error events logged via
`console.error` during the traversal. -/
def validateFieldGo (value : String) : List ValidationRule → String × Nat
  | [] => ("", 0)
  | r :: rs =>
    match r.exec value with
    | RuleExec.creationError => validateFieldGo value rs
    | RuleExec.execError =>
        let p := validateFieldGo value rs
        (p.1, p.2 + 1)
    | RuleExec.result b =>
        if b then validateFieldGo value rs else (ruleMessage r, 0)

/-- `validateField` together with its execution-error log count: filters the
rule set by `field_id`, returns `("", 0)` when no rule matches (the explicit
`if (!fieldRules || fieldRules.length === 0) return ''` guard), otherwise runs
the rules in order. -/
def validateFieldCore (rules : List ValidationRule) (value fieldId : String) :
    String × Nat :=
  let fieldRules := rules.filter (fun r => r.field_id == fieldId)
  if fieldRules.isEmpty then ("", 0)
  else validateFieldGo value fieldRules

/-- `validateField(value, fieldId)`: the error message alone (empty = valid). -/
def validateField (rules : List ValidationRule) (value fieldId : String) : String :=
  (validateFieldCore rules value fieldId).1

/-- A rule does not reject the value: its construction failed (outer catch,
loop continues), its evaluation threw (inner catch returns `true`), or its
predicate returned `true`. -/
def rulePasses (r : ValidationRule) (value : String) : Prop :=
  r.exec value = RuleExec.creationError ∨ r.exec value = RuleExec.execError ∨
    r.exec value = RuleExec.result true

/-! ## Helper lemmas for the validation engine -/

lemma validateFieldGo_all_throw (value : String) (l : List ValidationRule)
    (h : ∀ r ∈ l, r.exec value = RuleExec.execError) :
    validateFieldGo value l = ("", l.length) := by
  induction l with
  | nil => rfl
  | cons r rs ih =>
      have hr := h r (List.mem_cons_self r rs)
      have hrs : ∀ x ∈ rs, x.exec value = RuleExec.execError :=
        fun x hx => h x (List.mem_cons_of_mem r hx)
      simp [validateFieldGo, hr, ih hrs]

lemma validateFieldGo_all_pass (value : String) (l : List ValidationRule)
    (h : ∀ r ∈ l, rulePasses r value) :
    (validateFieldGo value l).1 = "" := by
  induction l with
  | nil => rfl
  | cons r rs ih =>
      have hrs : ∀ x ∈ rs, rulePasses x value :=
        fun x hx => h x (List.mem_cons_of_mem r hx)
      rcases h r (List.mem_cons_self r rs) with hr | hr | hr <;>
        simp [validateFieldGo, hr, ih hrs]

lemma validateFieldGo_first_false (value : String) (pre : List ValidationRule)
    (r : ValidationRule) (post : List ValidationRule)
    (hpre : ∀ p ∈ pre, rulePasses p value)
    (hr : r.exec value = RuleExec.result false) :
    (validateFieldGo value (pre ++ r :: post)).1 = ruleMessage r := by
  induction pre with
  | nil => simp [validateFieldGo, hr]
  | cons p ps ih =>
      have hps : ∀ x ∈ ps, rulePasses x value :=
        fun x hx => hpre x (List.mem_cons_of_mem p hx)
      rcases hpre p (List.mem_cons_self p ps) with hp | hp | hp <;>
        simp [validateFieldGo, hp, ih hps]

/-! ## Phone formatter (`formatPhoneNumber`, Sidebar.tsx lines 372-381) -/

/-- The digit characters of the raw input, in order: `value.replace(/\D/g, '')`
(JS `\d` is exactly the ASCII digits `0`-`9`, which is `Char.isDigit`). -/
def phoneDigits (value : String) : List Char :=
  value.toList.filter Char.isDigit

/-- The grouping applied when the anchored regex
`^(\d{0,3})(\d{0,3})(\d{0,4})$` matches `cleaned` (greedy: the first group
takes up to 3 digits, the second the next up to 3, the third the rest).
`!match[2]` and `!match[3]` are the JS falsiness tests on the (possibly empty)
captured group strings. -/
def formatGroups (cleaned : List Char) : String :=
  let g1 := cleaned.take 3
  let g2 := (cleaned.drop 3).take 3
  let g3 := (cleaned.drop 3).drop 3
  if g2.isEmpty then String.mk g1
  else if g3.isEmpty then "(" ++ String.mk g1 ++ ") " ++ String.mk g2
  else "(" ++ String.mk g1 ++ ") " ++ String.mk g2 ++ "-" ++ String.mk g3

/-- `formatPhoneNumber`: strip non-digits; the anchored regex matches exactly
when at most 10 digits remain, in which case the grouping is applied;
otherwise the raw `value` is returned unchanged. -/
def formatPhoneNumber (value : String) : String :=
  let cleaned := phoneDigits value
  if cleaned.length ≤ 10 then formatGroups cleaned else value

/-! ## Currency formatter (`handleCurrencyChange`, Sidebar.tsx lines 383-388) -/

/-- Numeric value of a list of ASCII digit characters, most significant first. -/
def digitsToNat (cs : List Char) : Nat :=
  cs.foldl (fun a c => 10 * a + (c.toNat - '0'.toNat)) 0

/-- An exact finite decimal: the value `(if neg then -1 else 1) * num / 10 ^ exp`.
This represents the result of parsing a decimal literal exactly (IEEE-754
double rounding is idealised away). -/
structure DecimalValue where
  neg : Bool
  num : Nat
  exp : Nat
deriving DecidableEq

/-- JS builtin `parseFloat` on decimal literals: skip leading whitespace, read
an optional sign, then the longest prefix of the form `digits[.digits]`; if
that prefix contains no digit at all the result is `NaN`, modelled as `none`.
(Exponent suffixes and `Infinity`, which no currency input uses, are not
modelled.) -/
def jsParseFloat (s : String) : Option DecimalValue :=
  let cs := s.toList.dropWhile (fun c => c = ' ' ∨ c = '\t' ∨ c = '\n' ∨ c = '\r')
  let signed : Bool × List Char :=
    match cs with
    | '-' :: rest => (true, rest)
    | '+' :: rest => (false, rest)
    | _ => (false, cs)
  let intDigits := signed.2.takeWhile Char.isDigit
  let afterInt := signed.2.dropWhile Char.isDigit
  let fracDigits : List Char :=
    match afterInt with
    | '.' :: rest => rest.takeWhile Char.isDigit
    | _ => []
  if intDigits = [] ∧ fracDigits = [] then none
  else
    some { neg := signed.1,
           num := digitsToNat intDigits * 10 ^ fracDigits.length +
             digitsToNat fracDigits,
           exp := fracDigits.length }

/-- Two-digit zero padding of the cents part. -/
def pad2 (n : ℕ) : String :=
  if n < 10 then "0" ++ toString n else toString n

/-- JS `Number.prototype.toFixed(2)`: on `NaN` the string `"NaN"`, otherwise
the value rounded to two decimal places (round-to-nearest on the magnitude,
half away from zero: `(num * 200 + 10 ^ exp) / (2 * 10 ^ exp)` is
`⌊num * 100 / 10 ^ exp + 1 / 2⌋` in integer arithmetic) and printed with
exactly two digits after the point. -/
def jsToFixed2 : Option DecimalValue → String
  | none => "NaN"
  | some d =>
      let n : Nat := (d.num * 200 + 10 ^ d.exp) / (2 * 10 ^ d.exp)
      (if d.neg then "-" else "") ++ toString (n / 100) ++ "." ++ pad2 (n % 100)

/-- The value that `handleCurrencyChange` writes into `formData` for raw input
`value`: `parseFloat(value).toFixed(2)`, with no guard on the parse failing. -/
def handleCurrencyChange (value : String) : String :=
  jsToFixed2 (jsParseFloat value)

/-! ## Multi-checkbox formatter (`handleMultiCheckboxChange`, lines 296-324) -/

/-- JS `String.prototype.split(',')` on the character list: splits at every
comma, keeping empty pieces (so `""` splits to `[""]`). -/
def splitCommaAux : List Char → List Char → List (List Char)
  | [], acc => [acc.reverse]
  | c :: rest, acc =>
      if c = ',' then acc.reverse :: splitCommaAux rest []
      else splitCommaAux rest (c :: acc)

/-- `value.split(',').filter(Boolean)`: split at commas and drop the empty
pieces (the only falsy strings). -/
def splitFilter (s : String) : List String :=
  ((splitCommaAux s.toList []).map (fun l => String.mk l)).filter (fun t => t ≠ "")

/-- JS `Array.prototype.join(',')`. -/
def joinComma : List String → String
  | [] => ""
  | [s] => s
  | s :: rest => s ++ "," ++ joinComma rest

/-- The new stored value computed by `handleMultiCheckboxChange` from the
previous stored value, the toggled option's `value` and its `checked` flag:
split the current comma-joined value, append the option on check or remove
every occurrence on uncheck, and re-join. -/
def handleMultiCheckboxChange (prev value : String) (checked : Bool) : String :=
  let currentValues := splitFilter prev
  let newValues :=
    if checked then currentValues ++ [value]
    else currentValues.filter (fun v => v ≠ value)
  joinComma newValues

/-! ## Submission controller (`handleSubmit`, Sidebar.tsx lines 216-274) -/

/-- `fieldKey.replace(/_/g, '-')`: normalise an underscore form-data key back
to the hyphenated field id. -/
def hyphenate (key : String) : String :=
  String.mk (key.toList.map (fun c => if c = '_' then '-' else c))

/-- The controller state of one form session: the React state flags
`isSubmitting`, the mutable ref `submissionInProgress.current`, the `errors`
map and `status` message, plus an instrumentation counter `submitCount` of how
many times the external submit collaborator `onSubmit` has been invoked. -/
structure SubmitState where
  isSubmitting : Bool
  submissionInProgress : Bool
  errors : List (String × String)
  statusType : String
  statusMessage : String
  submitCount : Nat
deriving DecidableEq

/-- How far one call to `handleSubmit` got before returning control:
rejected by the entry guard, returned after validation errors, or suspended
at `await onSubmit(formData)` with the collaborator invoked. -/
inductive SubmitPhase where
  | rejected
  | failedValidation
  | awaitingCollaborator
deriving DecidableEq

/-- The `Object.entries(formData).forEach` validation pass of `handleSubmit`:
for each form-data entry in insertion order, re-hyphenate the key and run
`validateField`; collect the non-empty error messages keyed by field id.
(`hasErrors` in the source is exactly the non-emptiness of this list, since
entries are only added with a non-empty message.) -/
def computeNewErrors (rules : List ValidationRule)
    (formData : List (String × String)) : List (String × String) :=
  formData.foldl
    (fun acc kv =>
      let fieldId := hyphenate kv.1
      let err := validateField rules kv.2 fieldId
      if err ≠ "" then acc ++ [(fieldId, err)] else acc)
    []

/-- The synchronous portion of `handleSubmit`, which in the JS event-loop
model runs atomically up to the first suspension point: check the entry guard
(`submissionInProgress.current || isSubmitting`) and return with no state
change if it is set (the duplicate submit is only logged); otherwise set both
guard flags, clear the status, validate every form-data entry; on errors set
the error map and error status and return (the `finally` block clears both
flags); otherwise invoke the external collaborator (counted) and suspend at
its `await` with both flags still set. -/
def handleSubmitSync (rules : List ValidationRule)
    (formData : List (String × String)) (s : SubmitState) :
    SubmitState × SubmitPhase :=
  if s.submissionInProgress || s.isSubmitting then (s, SubmitPhase.rejected)
  else
    let s1 : SubmitState :=
      { s with isSubmitting := true, submissionInProgress := true,
               statusType := "", statusMessage := "" }
    let newErrors := computeNewErrors rules formData
    if newErrors ≠ [] then
      ({ s1 with errors := newErrors,
                 statusType := "error",
                 statusMessage := "Please correct the form errors",
                 isSubmitting := false, submissionInProgress := false },
       SubmitPhase.failedValidation)
    else
      ({ s1 with submitCount := s1.submitCount + 1 },
       SubmitPhase.awaitingCollaborator)

/-- Resumption of `handleSubmit` after the awaited collaborator settles:
on success set the success status and clear the error map (the 5-second
form-reset timer is a UX timer outside this model); on rejection set the
error status from the failure message; either way the `finally` block clears
both guard flags. -/
def handleSubmitResume (success : Bool) (errMsg : String) (s : SubmitState) :
    SubmitState :=
  if success then
    { s with statusType := "success",
             statusMessage := "Form submitted successfully!",
             errors := [],
             isSubmitting := false, submissionInProgress := false }
  else
    { s with statusType := "error", statusMessage := errMsg,
             isSubmitting := false, submissionInProgress := false }

/-- The idle controller state at form-session start. -/
def idleState : SubmitState :=
  { isSubmitting := false, submissionInProgress := false, errors := [],
    statusType := "", statusMessage := "", submitCount := 0 }

/-! ## Multi-checkbox interaction model

A checkbox group fires `handleMultiCheckboxChange` with `checked = true` when
an option is ticked and `checked = false` when it is unticked.  The browser
only fires a check event for an option that is currently unchecked, and the
rendered check state mirrors membership in the stored value, so a
UI-consistent event sequence never checks a value already stored. -/

/-- One user interaction on a multi-checkbox group. -/
inductive CheckboxEvent where
  | check (v : String)
  | uncheck (v : String)

/-- The stored string after one interaction. -/
def applyCheckboxEvent (s : String) : CheckboxEvent → String
  | CheckboxEvent.check v => handleMultiCheckboxChange s v true
  | CheckboxEvent.uncheck v => handleMultiCheckboxChange s v false

/-- The stored string after a sequence of interactions. -/
def runCheckboxEvents (s : String) (evs : List CheckboxEvent) : String :=
  evs.foldl applyCheckboxEvent s

/-- Specification-level model: the list of currently-checked option strings in
the order they were checked. -/
def modelStep (l : List String) : CheckboxEvent → List String
  | CheckboxEvent.check v => l ++ [v]
  | CheckboxEvent.uncheck v => l.filter (fun x => x ≠ v)

/-- The checked-option list after a sequence of interactions. -/
def runModel (l : List String) (evs : List CheckboxEvent) : List String :=
  evs.foldl modelStep l

/-- An option string is usable as a comma-joined member: non-empty and
comma-free. -/
def commaFreeB (s : String) : Bool :=
  (s ≠ "" : Bool) && !(s.toList.contains ',')

/-- A UI-consistent event sequence from the checked-list `l`: every checked
option is a comma-free string not currently checked (the browser cannot fire
a check for an already-checked option). -/
def uiConsistentB : List String → List CheckboxEvent → Bool
  | _, [] => true
  | l, CheckboxEvent.check v :: rest =>
      commaFreeB v && !(l.contains v) && uiConsistentB (l ++ [v]) rest
  | l, CheckboxEvent.uncheck v :: rest =>
      uiConsistentB (l.filter (fun x => x ≠ v)) rest

/-! ## Split/join round-trip lemmas -/

lemma toList_append (a b : String) : (a ++ b).toList = a.toList ++ b.toList :=
  String.data_append a b

lemma mk_toList (s : String) : String.mk s.toList = s := rfl

lemma splitCommaAux_no_comma (v : List Char) (hv : ',' ∉ v) (acc : List Char) :
    splitCommaAux v acc = [acc.reverse ++ v] := by
  induction v generalizing acc with
  | nil => simp [splitCommaAux]
  | cons c rest ih =>
      have hc : c ≠ ',' := fun h => hv (h ▸ List.mem_cons_self c rest)
      have hrest : ',' ∉ rest := fun h => hv (List.mem_cons_of_mem c h)
      simp [splitCommaAux, hc, ih hrest]

lemma splitCommaAux_append (v : List Char) (hv : ',' ∉ v) (t acc : List Char) :
    splitCommaAux (v ++ ',' :: t) acc = (acc.reverse ++ v) :: splitCommaAux t [] := by
  induction v generalizing acc with
  | nil => simp [splitCommaAux]
  | cons c rest ih =>
      have hc : c ≠ ',' := fun h => hv (h ▸ List.mem_cons_self c rest)
      have hrest : ',' ∉ rest := fun h => hv (List.mem_cons_of_mem c h)
      simp [splitCommaAux, hc, ih hrest]

lemma splitFilter_joinComma (l : List String)
    (h : ∀ s ∈ l, s ≠ "" ∧ ',' ∉ s.toList) :
    splitFilter (joinComma l) = l := by
  induction l with
  | nil => simp [joinComma, splitFilter, splitCommaAux]
  | cons s rest ih =>
      obtain ⟨hs, hsc⟩ := h s (List.mem_cons_self s rest)
      have hrest : ∀ x ∈ rest, x ≠ "" ∧ ',' ∉ x.toList :=
        fun x hx => h x (List.mem_cons_of_mem s hx)
      cases rest with
      | nil =>
          simp only [joinComma, splitFilter]
          rw [splitCommaAux_no_comma s.toList hsc]
          simp [mk_toList, hs]
      | cons r rest2 =>
          have hjoin : joinComma (s :: r :: rest2) =
              s ++ "," ++ joinComma (r :: rest2) := rfl
          simp only [splitFilter, hjoin, toList_append]
          have hcomma : ("," : String).toList = [','] := rfl
          rw [List.append_assoc, hcomma, List.singleton_append]
          rw [splitCommaAux_append s.toList hsc]
          simp only [List.reverse_nil, List.nil_append, List.map_cons,
            List.filter_cons, mk_toList]
          have h2 := ih hrest
          simp only [splitFilter] at h2
          rw [if_pos (by simpa using hs), h2]

lemma toList_mk (l : List Char) : (String.mk l).toList = l := rfl

lemma phoneDigits_formatGroups (cleaned : List Char)
    (hall : ∀ c ∈ cleaned, c.isDigit = true) :
    phoneDigits (formatGroups cleaned) = cleaned := by
  have hf1 : (cleaned.take 3).filter Char.isDigit = cleaned.take 3 :=
    List.filter_eq_self.mpr fun c hc => hall c (List.take_subset _ _ hc)
  have hf2 : ((cleaned.drop 3).take 3).filter Char.isDigit = (cleaned.drop 3).take 3 :=
    List.filter_eq_self.mpr fun c hc =>
      hall c (List.drop_subset _ _ (List.take_subset _ _ hc))
  have hf3 : ((cleaned.drop 3).drop 3).filter Char.isDigit = (cleaned.drop 3).drop 3 :=
    List.filter_eq_self.mpr fun c hc =>
      hall c (List.drop_subset _ _ (List.drop_subset _ _ hc))
  have hsplit : cleaned.take 3 ++ cleaned.drop 3 = cleaned :=
    List.take_append_drop _ _
  have hsplit2 : (cleaned.drop 3).take 3 ++ (cleaned.drop 3).drop 3 = cleaned.drop 3 :=
    List.take_append_drop _ _
  have hc1 : ('(' : Char).isDigit = false := by decide
  have hc2 : (')' : Char).isDigit = false := by decide
  have hc3 : (' ' : Char).isDigit = false := by decide
  have hc4 : ('-' : Char).isDigit = false := by decide
  have ht1 : ("(" : String).toList = ['('] := rfl
  have ht2 : (") " : String).toList = [')', ' '] := rfl
  have ht3 : ("-" : String).toList = ['-'] := rfl
  by_cases h2 : (cleaned.drop 3).take 3 = []
  · have hd : cleaned.drop 3 = [] := by
      rcases List.take_eq_nil_iff.mp h2 with h | h
      · exact absurd h (by norm_num)
      · exact h
    simp only [formatGroups, phoneDigits, h2, List.isEmpty_nil, if_true,
      toList_mk, hf1]
    rw [hd, List.append_nil] at hsplit
    exact hsplit
  · by_cases h3 : (cleaned.drop 3).drop 3 = []
    · have hg2 : (cleaned.drop 3).take 3 = cleaned.drop 3 := by
        rw [h3, List.append_nil] at hsplit2
        exact hsplit2
      simp only [formatGroups, phoneDigits]
      rw [if_neg (by simpa [List.isEmpty_iff] using h2),
        if_pos (by simpa [List.isEmpty_iff] using h3)]
      simp only [toList_append, ht1, ht2, toList_mk, List.filter_append,
        List.filter_cons, List.filter_nil, hc1, hc2, hc3, Bool.false_eq_true,
        if_false, hf1, hf2, List.nil_append, List.append_nil]
      rw [hg2]
      exact hsplit
    · simp only [formatGroups, phoneDigits]
      rw [if_neg (by simpa [List.isEmpty_iff] using h2),
        if_neg (by simpa [List.isEmpty_iff] using h3)]
      simp only [toList_append, ht1, ht2, ht3, toList_mk, List.filter_append,
        List.filter_cons, List.filter_nil, hc1, hc2, hc3, hc4,
        Bool.false_eq_true, if_false, hf1, hf2, hf3, List.nil_append,
        List.append_nil]
      rw [List.append_assoc, hsplit2]
      exact hsplit

lemma runCheckbox_invariant (evs : List CheckboxEvent) :
    ∀ l : List String, (∀ s ∈ l, s ≠ "" ∧ ',' ∉ s.toList) → l.Nodup →
    uiConsistentB l evs = true →
    runCheckboxEvents (joinComma l) evs = joinComma (runModel l evs) ∧
    (runModel l evs).Nodup := by
  induction evs with
  | nil =>
      intro l hl hnd _
      exact ⟨rfl, hnd⟩
  | cons e rest ih =>
      intro l hl hnd hc
      have hsplit := splitFilter_joinComma l hl
      cases e with
      | check v =>
          simp only [uiConsistentB, Bool.and_eq_true] at hc
          obtain ⟨⟨hcf, hnm⟩, hrest⟩ := hc
          simp only [commaFreeB, Bool.and_eq_true, decide_eq_true_eq,
            Bool.not_eq_true', List.contains, List.elem_eq_mem,
            decide_eq_false_iff_not] at hcf hnm
          have happ : applyCheckboxEvent (joinComma l) (CheckboxEvent.check v) =
              joinComma (l ++ [v]) := by
            simp [applyCheckboxEvent, handleMultiCheckboxChange, hsplit]
          have hl' : ∀ s ∈ l ++ [v], s ≠ "" ∧ ',' ∉ s.toList := by
            intro s hs
            rcases List.mem_append.1 hs with hm | hm
            · exact hl s hm
            · rw [List.mem_singleton.1 hm]
              exact hcf
          have hnd' : (l ++ [v]).Nodup := by
            simp [List.nodup_append, hnd, hnm]
          have hrec := ih (l ++ [v]) hl' hnd' hrest
          refine ⟨?_, hrec.2⟩
          simp only [runCheckboxEvents, runModel, List.foldl_cons] at hrec ⊢
          rw [show applyCheckboxEvent (joinComma l) (CheckboxEvent.check v) =
            joinComma (l ++ [v]) from happ]
          exact hrec.1
      | uncheck v =>
          simp only [uiConsistentB] at hc
          have happ : applyCheckboxEvent (joinComma l) (CheckboxEvent.uncheck v) =
              joinComma (l.filter (fun x => x ≠ v)) := by
            simp [applyCheckboxEvent, handleMultiCheckboxChange, hsplit]
          have hl' : ∀ s ∈ l.filter (fun x => x ≠ v), s ≠ "" ∧ ',' ∉ s.toList :=
            fun s hs => hl s (List.mem_of_mem_filter hs)
          have hnd' : (l.filter (fun x => x ≠ v)).Nodup := hnd.filter _
          have hrec := ih _ hl' hnd' hc
          refine ⟨?_, hrec.2⟩
          simp only [runCheckboxEvents, runModel, List.foldl_cons] at hrec ⊢
          rw [show applyCheckboxEvent (joinComma l) (CheckboxEvent.uncheck v) =
            joinComma (l.filter (fun x => x ≠ v)) from happ]
          exact hrec.1

/-! ## Concrete data for witnesses -/

/-- A rule on `applicant-email` whose predicate accepts every value. -/
def ruleAlwaysTrue : ValidationRule :=
  { field_id := "applicant-email", prompt := none, description := none,
    exec := fun _ => RuleExec.result true }

/-- A rule on `applicant-email` rejecting the empty value, with only a
description. -/
def ruleRejectEmpty : ValidationRule :=
  { field_id := "applicant-email", prompt := none,
    description := some "Email required",
    exec := fun v => RuleExec.result (v ≠ "") }

/-- A rule on `passport-number` whose predicate throws on every call. -/
def ruleThrows : ValidationRule :=
  { field_id := "passport-number", prompt := some "Invalid passport",
    description := none, exec := fun _ => RuleExec.execError }

/-- Scenario-A form data: required full name empty, email populated. -/
def fdScenarioA : List (String × String) :=
  [("applicant_full_name", ""), ("applicant_email", "a@b.com")]

/-- A one-field form data sample. -/
def fdSample : List (String × String) := [("applicant_full_name", "Jane Doe")]

/-- The controller state reached by a first submit from idle that passed
validation and is suspended at the collaborator's `await`. -/
def awaitingState : SubmitState :=
  { isSubmitting := true, submissionInProgress := true, errors := [],
    statusType := "", statusMessage := "", submitCount := 1 }

/-! ## Claim theorems -/

/-- C4: for every field id with zero matching validation rules and every
value string, `validateField` returns the empty string (no error), regardless
of the value. -/
theorem validateField_no_rules (rules : List ValidationRule)
    (value fieldId : String)
    (h : rules.filter (fun r => r.field_id == fieldId) = []) :
    validateField rules value fieldId = "" := by
  simp [validateField, validateFieldCore, h]

/-- C4 witness: the repository's rule set is empty, so every field matches
zero rules and validates clean. -/
theorem validateField_no_rules_witness :
    validateField [] "anything at all" "applicant-email" = "" :=
  validateField_no_rules [] "anything at all" "applicant-email" rfl

/-- C5: rules matching a field are evaluated in the order supplied; the first
rule whose predicate evaluates to `false` short-circuits (the rules after it
are irrelevant to the result) and its prompt-or-description message
(`prompt || description || 'Invalid input'`, JS falsiness) is returned; if
every matching rule passes, `validateField` returns empty. -/
theorem validateField_first_false_short_circuit (rules : List ValidationRule)
    (value fieldId : String) :
    (∀ pre r post,
      rules.filter (fun x => x.field_id == fieldId) = pre ++ r :: post →
      (∀ p ∈ pre, rulePasses p value) →
      r.exec value = RuleExec.result false →
      validateField rules value fieldId = ruleMessage r) ∧
    ((∀ p ∈ rules.filter (fun x => x.field_id == fieldId), rulePasses p value) →
      validateField rules value fieldId = "") := by
  constructor
  · intro pre r post hfil hpre hr
    simp only [validateField, validateFieldCore, hfil]
    rw [if_neg (by simp [List.isEmpty_iff])]
    exact validateFieldGo_first_false value pre r post hpre hr
  · intro hall
    by_cases he : rules.filter (fun x => x.field_id == fieldId) = []
    · simp [validateField, validateFieldCore, he]
    · simp only [validateField, validateFieldCore]
      rw [if_neg (by simpa [List.isEmpty_iff] using he)]
      exact validateFieldGo_all_pass value _ hall

/-- C5 witness: a passing rule followed by a rule that rejects the empty
string; the second rule's description is returned. -/
theorem validateField_first_false_witness :
    validateField [ruleAlwaysTrue, ruleRejectEmpty] "" "applicant-email" =
      "Email required" := by
  have h := (validateField_first_false_short_circuit
    [ruleAlwaysTrue, ruleRejectEmpty] "" "applicant-email").1
    [ruleAlwaysTrue] ruleRejectEmpty [] rfl
    (fun p hp => by
      rw [List.mem_singleton.1 hp]
      exact Or.inr (Or.inr rfl))
    rfl
  exact h.trans rfl

/-- C6: when every rule matching a field throws on evaluation, `validateField`
returns empty (fail-open) — it is a total function, so nothing propagates to
the caller — and exactly one execution-error event is logged per rule
evaluation (the log count equals the number of matching rules). -/
theorem validateField_all_throw_fail_open (rules : List ValidationRule)
    (value fieldId : String)
    (h : ∀ r ∈ rules.filter (fun x => x.field_id == fieldId),
      r.exec value = RuleExec.execError) :
    validateFieldCore rules value fieldId =
      ("", (rules.filter (fun x => x.field_id == fieldId)).length) := by
  by_cases he : rules.filter (fun x => x.field_id == fieldId) = []
  · simp [validateFieldCore, he]
  · simp only [validateFieldCore]
    rw [if_neg (by simpa [List.isEmpty_iff] using he)]
    exact validateFieldGo_all_throw value _ h

/-- C6 witness: one always-throwing rule on `passport-number` validates clean
and logs exactly one execution-error event per call. -/
theorem validateField_all_throw_witness :
    validateFieldCore [ruleThrows] "X1234567" "passport-number" = ("", 1) := by
  have h := validateField_all_throw_fail_open [ruleThrows] "X1234567"
    "passport-number"
    (fun r hr => by
      have he : [ruleThrows].filter (fun x => x.field_id == "passport-number") =
          [ruleThrows] := rfl
      rw [he, List.mem_singleton] at hr
      rw [hr]
      rfl)
  exact h.trans rfl

lemma computeNewErrors_nil_aux (fd : List (String × String))
    (acc : List (String × String)) :
    fd.foldl
      (fun acc kv =>
        let fieldId := hyphenate kv.1
        let err := validateField [] kv.2 fieldId
        if err ≠ "" then acc ++ [(fieldId, err)] else acc)
      acc = acc := by
  induction fd generalizing acc with
  | nil => rfl
  | cons kv rest ih =>
      simp only [List.foldl_cons]
      rw [show validateField [] kv.2 (hyphenate kv.1) = "" from rfl]
      simpa using ih acc

lemma computeNewErrors_nil (fd : List (String × String)) :
    computeNewErrors [] fd = [] :=
  computeNewErrors_nil_aux fd []

/-- C1: the entry guard of `handleSubmit` enforces at-most-one concurrent
submission.  First conjunct: a submit arriving while the guard flag or the
submitting flag is set is rejected with no state change (in particular the
collaborator-invocation count is unchanged).  Second conjunct: starting idle,
if a first submit reaches the collaborator's `await` (phase
`awaitingCollaborator`, state `s1`), then a second submit issued before that
`await` resolves is rejected with no state change, and exactly one
collaborator invocation has happened across the two calls. -/
theorem submit_guard_at_most_once (rules rules2 : List ValidationRule)
    (fd fd2 : List (String × String)) (s s1 : SubmitState) :
    ((s.submissionInProgress || s.isSubmitting) = true →
      handleSubmitSync rules fd s = (s, SubmitPhase.rejected)) ∧
    (s.submissionInProgress = false → s.isSubmitting = false →
      handleSubmitSync rules fd s = (s1, SubmitPhase.awaitingCollaborator) →
      handleSubmitSync rules2 fd2 s1 = (s1, SubmitPhase.rejected) ∧
        s1.submitCount = s.submitCount + 1) := by
  constructor
  · intro hg
    simp [handleSubmitSync, hg]
  · intro hp hq h
    simp only [handleSubmitSync, hp, hq, Bool.or_self, Bool.false_eq_true,
      if_false] at h
    by_cases he : computeNewErrors rules fd = []
    · rw [if_neg (fun hc => hc he)] at h
      injection h with h1 h2
      subst h1
      constructor
      · simp [handleSubmitSync]
      · rfl
    · rw [if_pos he] at h
      injection h with h1 h2
      exact absurd h2 (by simp)

/-- C1 witness: from idle, a first submit (empty rule set, one populated
field) passes validation and invokes the collaborator once; a second submit
issued while the first is suspended at its `await` is rejected with no state
change. -/
theorem submit_guard_witness :
    handleSubmitSync [] fdSample idleState =
      (awaitingState, SubmitPhase.awaitingCollaborator) ∧
    handleSubmitSync [] fdSample awaitingState =
      (awaitingState, SubmitPhase.rejected) ∧
    awaitingState.submitCount = idleState.submitCount + 1 := by
  have h0 : handleSubmitSync [] fdSample idleState =
      (awaitingState, SubmitPhase.awaitingCollaborator) := by decide
  have h := (submit_guard_at_most_once [] [] fdSample fdSample idleState
    awaitingState).2 rfl rfl h0
  exact ⟨h0, h.1, h.2⟩

/-- C3 counterexample (Scenario A): with the repository's empty rule set,
submitting `{applicant_full_name: "", applicant_email: "a@b.com"}` from idle
produces an EMPTY ErrorMap and invokes the external submit collaborator
(phase `awaitingCollaborator`, invocation count 1) — `handleSubmit` checks
only the data-driven rules, the form's `noValidate` disables browser
required-field enforcement, and no code path checks required-ness, so the
claimed rejection with a `full-name` error does not happen. -/
theorem scenarioA_collaborator_called :
    (handleSubmitSync [] fdScenarioA idleState).1.errors = [] ∧
    (handleSubmitSync [] fdScenarioA idleState).1.submitCount = 1 ∧
    (handleSubmitSync [] fdScenarioA idleState).2 =
      SubmitPhase.awaitingCollaborator := by decide

/-- C3 amended: with no validation rules, full-form validation returns an
empty ErrorMap for every FormValues — including one with a required field
empty — so a submit from idle always proceeds past validation and invokes the
external submit collaborator exactly once (required-ness is not enforced by
`handleSubmit`, and the form's `noValidate` disables the browser's
enforcement). -/
theorem submit_no_rules_passes_validation (fd : List (String × String))
    (s : SubmitState) (hp : s.submissionInProgress = false)
    (hq : s.isSubmitting = false) :
    computeNewErrors [] fd = [] ∧
    (handleSubmitSync [] fd s).2 = SubmitPhase.awaitingCollaborator ∧
    (handleSubmitSync [] fd s).1.submitCount = s.submitCount + 1 := by
  have hce := computeNewErrors_nil fd
  refine ⟨hce, ?_, ?_⟩ <;>
    simp [handleSubmitSync, hp, hq, hce]

/-- C3 amended witness: the Scenario-A form data from idle. -/
theorem submit_no_rules_witness :
    computeNewErrors [] fdScenarioA = [] ∧
    (handleSubmitSync [] fdScenarioA idleState).2 =
      SubmitPhase.awaitingCollaborator ∧
    (handleSubmitSync [] fdScenarioA idleState).1.submitCount =
      idleState.submitCount + 1 :=
  submit_no_rules_passes_validation fdScenarioA idleState rfl rfl

/-- C2 (code-bug evidence): the currency formatter is
`parseFloat(value).toFixed(2)` with no guard, so the non-numeric raw input
`"abc"` is stored as the NaN-like text `"NaN"` instead of signalling a
`FormatError` and leaving the stored entry unchanged; and the Scenario-C
input `"12.3.4"` is not rejected either — `parseFloat` takes the longest
numeric prefix `12.3` and the store receives `"12.30"`. -/
theorem handleCurrencyChange_nan :
    handleCurrencyChange "abc" = "NaN" ∧
    handleCurrencyChange "12.3.4" = "12.30" := by decide

/-- C7: `formatPhoneNumber` strips all non-digit characters and formats the
remaining digits by digit count — 0-3 digits yield the digits only, 4-6
yield `(AAA) BBB`, 7-10 yield `(AAA) BBB-CCCC` — where the groups are the
first three, next three and remaining digits; being a total function it never
throws, and partial input formats partially. -/
theorem formatPhoneNumber_groups (s : String) :
    ((phoneDigits s).length ≤ 3 →
      formatPhoneNumber s = String.mk (phoneDigits s)) ∧
    (4 ≤ (phoneDigits s).length → (phoneDigits s).length ≤ 6 →
      formatPhoneNumber s =
        "(" ++ String.mk ((phoneDigits s).take 3) ++ ") " ++
          String.mk ((phoneDigits s).drop 3)) ∧
    (7 ≤ (phoneDigits s).length → (phoneDigits s).length ≤ 10 →
      formatPhoneNumber s =
        "(" ++ String.mk ((phoneDigits s).take 3) ++ ") " ++
          String.mk (((phoneDigits s).drop 3).take 3) ++ "-" ++
          String.mk ((phoneDigits s).drop 6)) := by
  refine ⟨?_, ?_, ?_⟩
  · intro h
    have h10 : (phoneDigits s).length ≤ 10 := h.trans (by norm_num)
    have hd : (phoneDigits s).drop 3 = [] := List.drop_eq_nil_of_le h
    have ht : (phoneDigits s).take 3 = phoneDigits s := List.take_of_length_le h
    simp [formatPhoneNumber, formatGroups, h10, hd, ht]
  · intro h4 h6
    have h10 : (phoneDigits s).length ≤ 10 := h6.trans (by norm_num)
    have hlen : ((phoneDigits s).drop 3).length = (phoneDigits s).length - 3 :=
      List.length_drop _ _
    have hne : (phoneDigits s).drop 3 ≠ [] := by
      intro hnil
      rw [hnil] at hlen
      simp at hlen
      omega
    have hg2 : ((phoneDigits s).drop 3).take 3 ≠ [] := by
      intro hnil
      rcases List.take_eq_nil_iff.mp hnil with h | h
      · exact absurd h (by norm_num)
      · exact hne h
    have hg3 : ((phoneDigits s).drop 3).drop 3 = [] :=
      List.drop_eq_nil_of_le (by omega)
    have htk : ((phoneDigits s).drop 3).take 3 = (phoneDigits s).drop 3 :=
      List.take_of_length_le (by omega)
    simp only [formatPhoneNumber, formatGroups, h10, if_true]
    rw [if_neg (by simpa [List.isEmpty_iff] using hg2),
      if_pos (by simpa [List.isEmpty_iff] using hg3), htk]
  · intro h7 h10
    have hlen : ((phoneDigits s).drop 3).length = (phoneDigits s).length - 3 :=
      List.length_drop _ _
    have hne : (phoneDigits s).drop 3 ≠ [] := by
      intro hnil
      rw [hnil] at hlen
      simp at hlen
      omega
    have hg2 : ((phoneDigits s).drop 3).take 3 ≠ [] := by
      intro hnil
      rcases List.take_eq_nil_iff.mp hnil with h | h
      · exact absurd h (by norm_num)
      · exact hne h
    have hg3 : ((phoneDigits s).drop 3).drop 3 ≠ [] := by
      intro hnil
      have := List.length_drop 3 ((phoneDigits s).drop 3)
      rw [hnil] at this
      simp at this
      omega
    have hdd : ((phoneDigits s).drop 3).drop 3 = (phoneDigits s).drop 6 := by
      rw [List.drop_drop]
    simp only [formatPhoneNumber, formatGroups, h10, if_true]
    rw [if_neg (by simpa [List.isEmpty_iff] using hg2),
      if_neg (by simpa [List.isEmpty_iff] using hg3), hdd]

/-- C7 witness: a 10-digit input with punctuation formats to the full
grouping. -/
theorem formatPhoneNumber_groups_witness :
    7 ≤ (phoneDigits "555-123-4567").length ∧
    (phoneDigits "555-123-4567").length ≤ 10 ∧
    formatPhoneNumber "555-123-4567" = "(555) 123-4567" := by
  refine ⟨by decide, by decide, ?_⟩
  have h := (formatPhoneNumber_groups "555-123-4567").2.2 (by decide) (by decide)
  exact h.trans (by decide)

/-- C8: for every input whose digit count is at most 10, `formatPhoneNumber`
is idempotent — formatting its own output yields the same output (the added
`(`, `)`, space and `-` are non-digits, so the digit sequence is preserved). -/
theorem formatPhoneNumber_idem (s : String)
    (h : (phoneDigits s).length ≤ 10) :
    formatPhoneNumber (formatPhoneNumber s) = formatPhoneNumber s := by
  have hall : ∀ c ∈ phoneDigits s, c.isDigit = true :=
    fun c hc => List.of_mem_filter hc
  have h1 : formatPhoneNumber s = formatGroups (phoneDigits s) := by
    simp [formatPhoneNumber, h]
  have h3 : phoneDigits (formatGroups (phoneDigits s)) = phoneDigits s :=
    phoneDigits_formatGroups _ hall
  rw [h1]
  simp [formatPhoneNumber, h3, h]

/-- C8 witness: a formatted 10-digit number re-formats to itself. -/
theorem formatPhoneNumber_idem_witness :
    (phoneDigits "555 867-5309").length ≤ 10 ∧
    formatPhoneNumber (formatPhoneNumber "555 867-5309") =
      formatPhoneNumber "555 867-5309" :=
  ⟨by decide, formatPhoneNumber_idem "555 867-5309" (by decide)⟩

/-- C10: for every input with more than 10 digit characters the regex fails
to match and `formatPhoneNumber` returns the input completely unchanged — no
stripping, no grouping. -/
theorem formatPhoneNumber_passthrough (s : String)
    (h : 10 < (phoneDigits s).length) :
    formatPhoneNumber s = s := by
  simp [formatPhoneNumber, Nat.not_le.mpr h]

/-- C10 witness: an 11-digit input with punctuation passes through raw. -/
theorem formatPhoneNumber_passthrough_witness :
    10 < (phoneDigits "1-555-123-45678").length ∧
    formatPhoneNumber "1-555-123-45678" = "1-555-123-45678" :=
  ⟨by decide, formatPhoneNumber_passthrough "1-555-123-45678" (by decide)⟩

/-- C9: for every UI-consistent interaction sequence on a multi-checkbox
group starting from the empty stored value (the browser only fires a check
for a currently-unchecked option, and option strings are non-empty and
comma-free), the stored value is exactly the comma-join of the
currently-checked option strings in the order they were checked, and that
list has no duplicates. -/
theorem multiCheckbox_stored_value (evs : List CheckboxEvent)
    (h : uiConsistentB [] evs = true) :
    runCheckboxEvents "" evs = joinComma (runModel [] evs) ∧
    (runModel [] evs).Nodup := by
  have hrun := runCheckbox_invariant evs [] (by simp) List.nodup_nil h
  simpa [joinComma] using hrun

/-- C9 witness (Scenario D): options `A`, `C` checked then `A` unchecked
leaves exactly `"C"` stored. -/
theorem multiCheckbox_scenarioD :
    uiConsistentB []
      [CheckboxEvent.check "A", CheckboxEvent.check "C",
        CheckboxEvent.uncheck "A"] = true ∧
    runCheckboxEvents ""
      [CheckboxEvent.check "A", CheckboxEvent.check "C",
        CheckboxEvent.uncheck "A"] = "C" := by
  refine ⟨by decide, ?_⟩
  have h := multiCheckbox_stored_value
    [CheckboxEvent.check "A", CheckboxEvent.check "C",
      CheckboxEvent.uncheck "A"] (by decide)
  exact h.1.trans (by decide)
